import Mathlib

/-!
Verification of the conversation-state and quota management core of the
Lana telegram bot (`lana_telegram_bot.py`).

The embedding models the SQLite database as explicit Lean data:

* table `users` as a list of `UserRow`,
* table `convo` as a list of `Turn` kept in ascending `id` order
  (`id` is the SQLite `AUTOINCREMENT` column, so insertion appends a row
  whose `id` is strictly larger than every existing one; hence
  `ORDER BY id ASC` reads the list front-to-back and `ORDER BY id DESC`
  reads its reverse; the well-formedness predicate `WF` states this),
* table existence as the flag `DB.tables` (operations other than the
  `CREATE TABLE IF NOT EXISTS` of `init_db` raise
  `sqlite3.OperationalError` when the tables are missing, which happens
  on a freshly opened in-memory database),
* the process-wide `DB_URI` flag and the file/memory backends as `Sys`,
  with a schedule `Sys.faults` of injected I/O failures for storage
  calls that touch the file-backed database,
* Python exceptions as `Except DBErr`; `DBErr.ioClass` stands for the
  class `(OSError, sqlite3.OperationalError)` caught by `_db_try`, and
  `DBErr.other` for every other exception (e.g. the `IntegrityError`
  raised by the `CHECK` constraint on `convo.role`, or the `TypeError`
  raised when comparing `None` with an `int`).

Dates are strings (`date.today().isoformat()`); each modelled call takes
the current date as an explicit `today` parameter.
-/

namespace Lana

/-- A row of the `convo` table: autoincrement `id`, owner, role, text. -/
structure Turn where
  id : Nat
  user_id : Nat
  role : String
  content : String
deriving DecidableEq

/-- A row of the `users` table.  `messages_today` and `last_reset` are
nullable in the schema, hence `Option`. -/
structure UserRow where
  user_id : Nat
  username : Option String
  messages_today : Option Int
  last_reset : Option String
deriving DecidableEq

/-- Contents of one SQLite database (file-backed or in-memory).
`tables` records whether `init_db` has created the two tables. -/
structure DB where
  tables : Bool
  users : List UserRow
  convo : List Turn
  nextId : Nat
deriving DecidableEq

/-- A freshly opened database: no tables, no rows, autoincrement at 1.
This is what the shared in-memory database looks like right after
`_switch_to_memory_db`. -/
def freshDB : DB := ⟨false, [], [], 1⟩

/-- Exception classes relevant to `_db_try`:
`ioClass` is `(OSError, sqlite3.OperationalError)` — the class caught
by the fallback wrapper; `other` is any other exception. -/
inductive DBErr where
  | ioClass
  | other
deriving DecidableEq

/-- The `convo` list is held in ascending `id` order and every stored
`id` is below the autoincrement counter — the invariant SQLite's
`AUTOICREMENT` maintains for the real table. -/
def WF (d : DB) : Prop :=
  d.convo.Pairwise (fun a b => a.id < b.id) ∧ ∀ t ∈ d.convo, t.id < d.nextId

/-- The inner closure `_init` of `init_db`: `CREATE TABLE IF NOT EXISTS`
for `users` and `convo`; idempotent, preserves existing rows. -/
def init_db_op (d : DB) : Except DBErr (Unit × DB) :=
  .ok ((), { d with tables := true })

/-- The inner closure `_get` of `get_user(user_id, username)`:
`SELECT` the row; if absent `INSERT` it with counter `0` and today's
date; if present with a stale (or `NULL`) `last_reset`, `UPDATE` the
counter to `0` and the date to today before returning. -/
def get_user_op (today : String) (user_id : Nat) (username : Option String)
    (d : DB) : Except DBErr ((Nat × Option Int × Option String) × DB) :=
  if d.tables = false then .error .ioClass else
  match d.users.find? (fun r => r.user_id == user_id) with
  | none =>
    .ok ((user_id, some 0, some today),
      { d with users := d.users ++ [⟨user_id, username, some 0, some today⟩] })
  | some row =>
    if row.last_reset = some today then
      .ok ((row.user_id, row.messages_today, row.last_reset), d)
    else
      .ok ((row.user_id, some 0, some today),
        { d with users := d.users.map (fun r =>
            if r.user_id == user_id then
              { r with messages_today := some 0, last_reset := some today }
            else r) })

/-- The inner closure `_inc` of `inc_user_counter`:
`UPDATE users SET messages_today = COALESCE(messages_today,0) + 1
WHERE user_id = ?` — a no-op on the row set when the user is absent. -/
def inc_user_counter_op (user_id : Nat) (d : DB) : Except DBErr (Unit × DB) :=
  if d.tables = false then .error .ioClass else
  .ok ((), { d with users := d.users.map (fun r =>
    if r.user_id == user_id then
      { r with messages_today := some (r.messages_today.getD 0 + 1) }
    else r) })

/-- The inner closure `_add` of `add_msg(user_id, role, content)`:
`INSERT` the turn, then
`DELETE FROM convo WHERE id IN (SELECT id FROM convo WHERE user_id = ?
ORDER BY id DESC LIMIT -1 OFFSET HISTORY_TURNS * 2)` — i.e. delete every
turn of this user other than the `HISTORY_TURNS * 2` most recent ones.
A role outside the `CHECK (role IN ('user','assistant','system'))`
constraint raises `sqlite3.IntegrityError`, which is not in the class
caught by `_db_try`. -/
def add_msg_op (HISTORY_TURNS : Nat) (user_id : Nat) (role content : String)
    (d : DB) : Except DBErr (Unit × DB) :=
  if d.tables = false then .error .ioClass else
  if role ≠ "user" ∧ role ≠ "assistant" ∧ role ≠ "system" then .error .other else
  let convo1 := d.convo ++ [⟨d.nextId, user_id, role, content⟩]
  let doomed := ((convo1.filter (fun t => t.user_id == user_id)).reverse.drop
    (HISTORY_TURNS * 2)).map (fun t => t.id)
  .ok ((), { d with
    convo := convo1.filter (fun t => !(doomed.contains t.id)),
    nextId := d.nextId + 1 })

/-- The `(role, content)` pairs of a user's turns in `id` order — the
result set of `SELECT role, content FROM convo WHERE user_id = ?
ORDER BY id ASC` (list order is `id` order under `WF`). -/
def histPairs (d : DB) (user_id : Nat) : List (String × String) :=
  (d.convo.filter (fun t => t.user_id == user_id)).map (fun t => (t.role, t.content))

/-- The inner closure `_hist` of `get_history(user_id)`. -/
def get_history_op (user_id : Nat) (d : DB) :
    Except DBErr (List (String × String) × DB) :=
  if d.tables = false then .error .ioClass else
  .ok (histPairs d user_id, d)

/-- The inner closure `_do_reset` of the `/reset` handlers:
`DELETE FROM convo WHERE user_id = ?`. -/
def do_reset_op (user_id : Nat) (d : DB) : Except DBErr (Unit × DB) :=
  if d.tables = false then .error .ioClass else
  .ok ((), { d with convo := d.convo.filter (fun t => !(t.user_id == user_id)) })

/-- Process-wide storage state: the `DB_URI` flag (`false` = durable
file-backed database, `true` = shared in-memory database), the contents
of the active database, and the schedule of injected I/O faults for
storage calls that go to the file-backed database (the in-memory
database performs no file I/O). -/
structure Sys where
  uri : Bool
  store : DB
  faults : List Bool
deriving DecidableEq

/-- The body of `_switch_to_memory_db`: set the DSN to the shared
in-memory database (`DB_URI := True`).  The memory database starts out
fresh — its tables have not been created. -/
def switch_to_memory_db (s : Sys) : Sys :=
  { s with uri := true, store := freshDB }

/-- One attempt at running a storage operation against the active
database.  A file-backed call first consumes the next scheduled fault
(an `OSError` from the filesystem); an in-memory call cannot hit file
I/O and only fails if the operation itself raises. -/
def attempt {α : Type} (op : DB → Except DBErr (α × DB)) (s : Sys) :
    Except DBErr α × Sys :=
  if s.uri then
    match op s.store with
    | .ok (a, d) => (.ok a, { s with store := d })
    | .error e => (.error e, s)
  else
    let f := s.faults.headD false
    let s1 := { s with faults := s.faults.tail }
    if f then (.error .ioClass, s1)
    else
      match op s1.store with
      | .ok (a, d) => (.ok a, { s1 with store := d })
      | .error e => (.error e, s1)

/-- The resilient executor `_db_try(fn)`: run the operation; on an
exception in the class `(OSError, sqlite3.OperationalError)`, if
`DB_URI` is still false, switch to the shared in-memory database and
retry the operation exactly once (this second result is returned
as-is); if `DB_URI` is already true, re-raise.  Exceptions outside the
class propagate immediately. -/
def db_try {α : Type} (op : DB → Except DBErr (α × DB)) (s : Sys) :
    Except DBErr α × Sys :=
  match attempt op s with
  | (.ok a, s1) => (.ok a, s1)
  | (.error e, s1) =>
    match e with
    | .ioClass =>
      if s1.uri then (.error e, s1)
      else attempt op (switch_to_memory_db s1)
    | .other => (.error e, s1)

/-- One role-tagged message sent to the completion provider
(a Python `dict` with keys `role` and `content`). -/
structure Msg where
  role : String
  content : String
deriving DecidableEq

/-- The fixed persona instruction `SYSTEM_PROMPT` (the f-string with
`SYSTEM_NAME = "Lana"` substituted; the triple-quoted literal begins
and ends with a newline). -/
def SYSTEM_PROMPT : String :=
  "\nYou are Lana, an AI girlfriend and supportive companion.\n" ++
  "Core traits:\n" ++
  "- Warm, playful, witty; flirty but tasteful (PG-13). No explicit sexual content.\n" ++
  "- Emotionally intelligent: validate feelings, ask short follow-up questions.\n" ++
  "- Concise by default (2–5 sentences), but expand if user asks.\n" ++
  "- Mirror the user\x27s language automatically (reply in the same language and register). If user mixes languages, choose the dominant language.\n" ++
  "- Use light emoji occasionally if it fits the tone.\n" ++
  "Boundaries & Safety:\n" ++
  "- Refuse explicit sexual content, illegal, violent, self-harm, medical/financial/legal advice beyond general support; suggest safer alternatives.\n" ++
  "- If asked NSFW content, gently decline and steer to romantic/wholesome topics.\n" ++
  "Memory:\n" ++
  "- If the user shares preferences (likes/dislikes, hobbies, birthdays), naturally remember them during the conversation.\n" ++
  "Style:\n" ++
  "- Address the user by name if available from platform context (e.g., Telegram username), otherwise use a friendly term.\n"

/-- A completion provider: `none` models the unavailable case
(`OPENAI_AVAILABLE and _openai_client and OPENAI_API_KEY` falsy);
`some complete` models a configured client whose API call either
returns a reply or raises. -/
def Provider : Type := Option (List Msg → Except Unit String)

/-- Python `str.strip()`: drop leading and trailing whitespace.
Implemented by structural recursion on the character list so that it
evaluates inside the kernel (the builtin `String.trim` is defined by
well-founded recursion and does not). -/
def pyStrip (s : String) : String :=
  ⟨((s.data.dropWhile Char.isWhitespace).reverse.dropWhile
      Char.isWhitespace).reverse⟩

/-- The body of `_openai_reply(messages)`: with a configured client,
call the API and return the stripped reply, substituting a fixed
apology when the call raises; without one, return the deterministic
stub that echoes the latest user message. -/
def openai_reply (provider : Provider) (messages : List Msg) : String :=
  match provider with
  | some complete =>
    match complete messages with
    | .ok txt => pyStrip txt
    | .error _ => "У меня небольшой сбой с мозгами 🤯 Попробуешь ещё раз?"
  | none =>
    let user_msg :=
      (((messages.reverse).find? (fun m => m.role == "user")).map
        (fun m => m.content)).getD ""
    "Я тут с тобой, милашка 💫\n\nТы написал(а): " ++ user_msg

/-- The body of `generate_reply(user_id, user_text, username)`:
fetch the history through `_db_try(_hist)`, build the message list —
persona prompt, then (when `username` is truthy, i.e. neither `None`
nor the empty string) the username note, then the stored turns in
order, then the new user message — and hand it to `_openai_reply`.
An exception from the history fetch propagates to the caller. -/
def generate_reply (provider : Provider) (user_id : Nat) (user_text : String)
    (username : Option String) (s : Sys) : Except DBErr String × Sys :=
  match db_try (get_history_op user_id) s with
  | (.error e, s1) => (.error e, s1)
  | (.ok history, s1) =>
    let messages := [Msg.mk "system" SYSTEM_PROMPT]
    let messages :=
      match username with
      | some u =>
        if u = "" then messages
        else messages ++ [Msg.mk "system" ("User telegram username is @" ++ u ++ ".")]
      | none => messages
    let messages := messages ++ history.map (fun rc => Msg.mk rc.1 rc.2)
    let messages := messages ++ [Msg.mk "user" user_text]
    (.ok (openai_reply provider messages), s1)

/-- The paywall notice `PAYWALL_HOOK(user_id)` (the argument is unused
by the Python body). -/
def PAYWALL_HOOK (_user_id : Nat) : String :=
  "Бесплатный лимит на сегодня исчерпан. ✨\n\n" ++
  "Скоро тут появятся способы подписки: Telegram Stars / CryptoBot / Patreon / Gumroad.\n" ++
  "Хочешь — напиши, какой способ удобнее, я подсуну разработчику 😉"

/-- The `try:` body of the Telegram text handler `_tg_text`:
look the user up, emit the paywall notice when the daily counter has
reached `FREE_MESSAGES_PER_DAY`, otherwise record the user turn,
generate the reply, record it, increment the counter and emit it.
Comparing a `NULL` counter against the `int` limit raises `TypeError`
(`DBErr.other`).  The result is `Except`: an exception anywhere in the
body is the `.error` case. -/
def tg_text_body (provider : Provider) (HISTORY_TURNS FREE_MESSAGES_PER_DAY : Nat)
    (today : String) (user_id : Nat) (username : Option String) (text : String)
    (s : Sys) : Except DBErr String × Sys :=
  match db_try (get_user_op today user_id username) s with
  | (.error e, s1) => (.error e, s1)
  | (.ok (uid, used, _last), s1) =>
    match used with
    | none => (.error .other, s1)
    | some u =>
      if (FREE_MESSAGES_PER_DAY : Int) ≤ u then (.ok (PAYWALL_HOOK uid), s1)
      else
        let user_text := pyStrip text
        match db_try (add_msg_op HISTORY_TURNS uid "user" user_text) s1 with
        | (.error e, s2) => (.error e, s2)
        | (.ok _, s2) =>
          match generate_reply provider uid user_text username s2 with
          | (.error e, s3) => (.error e, s3)
          | (.ok reply, s3) =>
            match db_try (add_msg_op HISTORY_TURNS uid "assistant" reply) s3 with
            | (.error e, s4) => (.error e, s4)
            | (.ok _, s4) =>
              match db_try (inc_user_counter_op uid) s4 with
              | (.error e, s5) => (.error e, s5)
              | (.ok _, s5) => (.ok reply, s5)

/-- The Telegram text handler `_tg_text`: its whole body sits in a
`try/except Exception` that logs and replies with a fixed apology, so
the handler always produces exactly one outgoing message. -/
def tg_text (provider : Provider) (HISTORY_TURNS FREE_MESSAGES_PER_DAY : Nat)
    (today : String) (user_id : Nat) (username : Option String) (text : String)
    (s : Sys) : String × Sys :=
  match tg_text_body provider HISTORY_TURNS FREE_MESSAGES_PER_DAY today
      user_id username text s with
  | (.ok reply, s1) => (reply, s1)
  | (.error _, s1) => ("Упс, у меня затык с базой/сетью. Напиши ещё раз чуть позже.", s1)

/-- The per-line loop of `run_local_session`: skip blank lines, stop on
a quit command, handle `/reset`, apply the quota gate, otherwise record
the user turn, generate and record the reply, increment the counter and
print the reply.  There is no `try/except` around the per-message
handling, so any exception aborts the whole loop: the result pairs the
lines printed so far with either the final state or the escaped
exception. -/
def session_loop (provider : Provider) (HISTORY_TURNS FREE_MESSAGES_PER_DAY : Nat)
    (today : String) (fake_user_id : Nat) (fake_username : Option String) :
    List String → Sys → List String × Except DBErr Sys
  | [], s => ([], .ok s)
  | raw :: rest, s =>
    let user_text := pyStrip raw
    if user_text = "" then
      session_loop provider HISTORY_TURNS FREE_MESSAGES_PER_DAY today
        fake_user_id fake_username rest s
    else if user_text = "/quit" ∨ user_text = ":q" ∨ user_text = "exit" then
      ([], .ok s)
    else if user_text = "/reset" then
      match db_try (do_reset_op fake_user_id) s with
      | (.error e, _) => ([], .error e)
      | (.ok _, s1) =>
        let r := session_loop provider HISTORY_TURNS FREE_MESSAGES_PER_DAY today
          fake_user_id fake_username rest s1
        ("Ок, начнём сначала ✨" :: r.1, r.2)
    else
      match db_try (get_user_op today fake_user_id fake_username) s with
      | (.error e, _) => ([], .error e)
      | (.ok (uid, used, _last), s1) =>
        match used with
        | none => ([], .error .other)
        | some u =>
          if (FREE_MESSAGES_PER_DAY : Int) ≤ u then
            let r := session_loop provider HISTORY_TURNS FREE_MESSAGES_PER_DAY today
              fake_user_id fake_username rest s1
            (PAYWALL_HOOK uid :: r.1, r.2)
          else
            match db_try (add_msg_op HISTORY_TURNS uid "user" user_text) s1 with
            | (.error e, _) => ([], .error e)
            | (.ok _, s2) =>
              match generate_reply provider uid user_text fake_username s2 with
              | (.error e, _) => ([], .error e)
              | (.ok reply, s3) =>
                match db_try (add_msg_op HISTORY_TURNS uid "assistant" reply) s3 with
                | (.error e, _) => ([], .error e)
                | (.ok _, s4) =>
                  match db_try (inc_user_counter_op uid) s4 with
                  | (.error e, _) => ([], .error e)
                  | (.ok _, s5) =>
                    let r := session_loop provider HISTORY_TURNS FREE_MESSAGES_PER_DAY
                      today fake_user_id fake_username rest s5
                    (reply :: r.1, r.2)

/-- The function `run_local_session(lines)`: `init_db()`, then
`get_user(1, "local_user")`, then the per-line loop with that fixed
local identity. -/
def run_local_session (provider : Provider)
    (HISTORY_TURNS FREE_MESSAGES_PER_DAY : Nat) (today : String)
    (lines : List String) (s : Sys) : List String × Except DBErr Sys :=
  match db_try init_db_op s with
  | (.error e, _) => ([], .error e)
  | (.ok _, s1) =>
    match db_try (get_user_op today 1 (some "local_user")) s1 with
    | (.error e, _) => ([], .error e)
    | (.ok _, s2) =>
      session_loop provider HISTORY_TURNS FREE_MESSAGES_PER_DAY today
        1 (some "local_user") lines s2

/-! ### List infrastructure -/

/-- The last `n` elements of a list (the whole list when it is shorter
than `n`). -/
def lastN {α : Type} (n : Nat) (l : List α) : List α :=
  l.drop (l.length - n)

theorem length_lastN {α : Type} (n : Nat) (l : List α) :
    (lastN n l).length = min n l.length := by
  simp [lastN]
  omega

theorem lastN_append_of_le {α : Type} (n : Nat) (a b : List α)
    (h : n ≤ b.length) : lastN n (a ++ b) = lastN n b := by
  unfold lastN
  have h1 : (a ++ b).length - n = a.length + (b.length - n) := by
    simp
    omega
  rw [h1, List.drop_append]

theorem lastN_lastN_append {α : Type} (n : Nat) (l b : List α) :
    lastN n (lastN n l ++ b) = lastN n (l ++ b) := by
  by_cases h : n ≤ l.length
  · have hsplit : l = l.take (l.length - n) ++ l.drop (l.length - n) :=
      (List.take_append_drop _ l).symm
    conv_rhs => rw [hsplit]
    rw [List.append_assoc]
    rw [lastN_append_of_le n _ (l.drop (l.length - n) ++ b)]
    · rfl
    · simp
      omega
  · have : l.length - n = 0 := by omega
    simp [lastN, this]

theorem map_lastN {α β : Type} (f : α → β) (n : Nat) (l : List α) :
    (lastN n l).map f = lastN n (l.map f) := by
  simp [lastN, List.map_drop]

/-- Removing from `a ++ b` exactly the elements whose key appears in
`a` leaves `b`, provided the keys of `a ++ b` are pairwise distinct. -/
theorem filter_key_append {α : Type} (key : α → Nat) :
    ∀ (a b : List α), (a ++ b).Pairwise (fun x y => key x ≠ key y) →
      (a ++ b).filter (fun t => !((a.map key).contains (key t))) = b := by
  intro a
  induction a with
  | nil =>
    intro b _
    simp
  | cons x a' ih =>
    intro b hp
    have hp' := hp
    rw [List.cons_append, List.pairwise_cons] at hp'
    obtain ⟨hx, htail⟩ := hp'
    have hstep :
        (a' ++ b).filter (fun t => !(((x :: a').map key).contains (key t))) =
        (a' ++ b).filter (fun t => !((a'.map key).contains (key t))) := by
      apply List.filter_congr
      intro t ht
      have hne : key x ≠ key t := hx t ht
      simp [List.contains, Ne.symm hne]
    calc ((x :: a') ++ b).filter (fun t => !(((x :: a').map key).contains (key t)))
        = (a' ++ b).filter (fun t => !(((x :: a').map key).contains (key t))) := by
          simp [List.filter_cons]
      _ = b := by rw [hstep]; exact ih b htail

/-! ### Characterization of `add_msg_op` -/

/-- The database state after a successful `_add`: insert the turn with
the next autoincrement id, then delete the user's turns other than the
most recent `HISTORY_TURNS * 2`. -/
def addPost (HISTORY_TURNS : Nat) (user_id : Nat) (role content : String)
    (d : DB) : DB :=
  let convo1 := d.convo ++ [⟨d.nextId, user_id, role, content⟩]
  let doomed := ((convo1.filter (fun t => t.user_id == user_id)).reverse.drop
    (HISTORY_TURNS * 2)).map (fun t => t.id)
  { d with
    convo := convo1.filter (fun t => !(doomed.contains t.id)),
    nextId := d.nextId + 1 }

theorem add_msg_op_eq (HISTORY_TURNS : Nat) (user_id : Nat)
    (role content : String) (d : DB) (htab : d.tables = true)
    (hrole : role = "user" ∨ role = "assistant" ∨ role = "system") :
    add_msg_op HISTORY_TURNS user_id role content d =
      .ok ((), addPost HISTORY_TURNS user_id role content d) := by
  unfold add_msg_op addPost
  rcases hrole with h | h | h <;> simp [htab, h]

theorem addPost_users (HISTORY_TURNS user_id : Nat) (role content : String)
    (d : DB) : (addPost HISTORY_TURNS user_id role content d).users = d.users :=
  rfl

theorem addPost_tables (HISTORY_TURNS user_id : Nat) (role content : String)
    (d : DB) : (addPost HISTORY_TURNS user_id role content d).tables = d.tables :=
  rfl

theorem addPost_nextId (HISTORY_TURNS user_id : Nat) (role content : String)
    (d : DB) :
    (addPost HISTORY_TURNS user_id role content d).nextId = d.nextId + 1 :=
  rfl

/-- Under `WF`, the extended conversation list (old turns followed by
the newly inserted one) has pairwise strictly increasing ids. -/
theorem convo1_pairwise (d : DB) (hwf : WF d) (user_id : Nat)
    (role content : String) :
    (d.convo ++ [Turn.mk d.nextId user_id role content]).Pairwise
      (fun a b => a.id < b.id) := by
  rw [List.pairwise_append]
  refine ⟨hwf.1, List.pairwise_singleton _ _, ?_⟩
  intro x hx y hy
  simp at hy
  subst hy
  exact hwf.2 x hx

theorem pairwise_ne_of_lt {l : List Turn}
    (h : l.Pairwise (fun a b => a.id < b.id)) :
    l.Pairwise (fun a b => a.id ≠ b.id) :=
  h.imp Nat.ne_of_lt

/-- Filtering out exactly the ids of everything but the last `m`
elements (in reverse order, this is skip-`m`-take-rest) of a list with
pairwise distinct ids leaves the last `m` elements. -/
theorem filter_drop_reverse_ids (u : List Turn)
    (hu : u.Pairwise (fun a b => a.id ≠ b.id)) (m : Nat) :
    u.filter (fun t =>
        !(((u.reverse.drop m).map (fun t => t.id)).contains t.id)) =
      u.drop (u.length - m) := by
  have hpair' : (u.take (u.length - m) ++ u.drop (u.length - m)).Pairwise
      (fun a b => a.id ≠ b.id) := by
    rw [List.take_append_drop]
    exact hu
  have hkey := filter_key_append (fun t => t.id)
    (u.take (u.length - m)) (u.drop (u.length - m)) hpair'
  rw [List.take_append_drop] at hkey
  rw [← hkey]
  apply List.filter_congr
  intro t _
  have hrev : u.reverse.drop m = (u.take (u.length - m)).reverse :=
    List.drop_reverse
  rw [hrev, List.map_reverse]
  simp [List.contains]

/-- Two consecutive filters commute. -/
theorem filter_comm_turn (p q : Turn → Bool) (l : List Turn) :
    (l.filter q).filter p = (l.filter p).filter q := by
  rw [List.filter_filter, List.filter_filter]
  apply List.filter_congr
  intro t _
  exact Bool.and_comm _ _

/-- After a successful insert-and-trim, the user's own turns are
exactly the last `HISTORY_TURNS * 2` of the old turns followed by the
new one. -/
theorem addPost_filter_self (HISTORY_TURNS user_id : Nat)
    (role content : String) (d : DB) (hwf : WF d) :
    (addPost HISTORY_TURNS user_id role content d).convo.filter
        (fun t => t.user_id == user_id) =
      lastN (HISTORY_TURNS * 2)
        (d.convo.filter (fun t => t.user_id == user_id) ++
          [Turn.mk d.nextId user_id role content]) := by
  have hpair1 : (d.convo ++ [Turn.mk d.nextId user_id role content]).Pairwise
      (fun a b => a.id < b.id) :=
    convo1_pairwise d hwf user_id role content
  have hpairu :
      ((d.convo ++ [Turn.mk d.nextId user_id role content]).filter
        (fun t => t.user_id == user_id)).Pairwise (fun a b => a.id ≠ b.id) :=
    List.Pairwise.sublist (List.filter_sublist _) (pairwise_ne_of_lt hpair1)
  have hufilter :
      (d.convo ++ [Turn.mk d.nextId user_id role content]).filter
          (fun t => t.user_id == user_id) =
        d.convo.filter (fun t => t.user_id == user_id) ++
          [Turn.mk d.nextId user_id role content] := by
    rw [List.filter_append]
    simp
  show ((d.convo ++ [Turn.mk d.nextId user_id role content]).filter (fun t =>
      !((((((d.convo ++ [Turn.mk d.nextId user_id role content]).filter
        (fun t => t.user_id == user_id)).reverse.drop
          (HISTORY_TURNS * 2)).map (fun t => t.id)).contains t.id)))).filter
        (fun t => t.user_id == user_id) = _
  rw [filter_comm_turn]
  rw [filter_drop_reverse_ids _ hpairu (HISTORY_TURNS * 2)]
  rw [hufilter]
  rfl

/-- The trim deletes only turns of the inserting user: any other
user's turns are untouched. -/
theorem addPost_filter_other (HISTORY_TURNS user_id : Nat)
    (role content : String) (d : DB) (hwf : WF d) (w : Nat) (hw : w ≠ user_id) :
    (addPost HISTORY_TURNS user_id role content d).convo.filter
        (fun t => t.user_id == w) =
      d.convo.filter (fun t => t.user_id == w) := by
  have hpair1 : (d.convo ++ [Turn.mk d.nextId user_id role content]).Pairwise
      (fun a b => a.id < b.id) :=
    convo1_pairwise d hwf user_id role content
  have hnodup : ((d.convo ++ [Turn.mk d.nextId user_id role content]).map
      (fun t => t.id)).Nodup :=
    List.pairwise_map.mpr (pairwise_ne_of_lt hpair1)
  show ((d.convo ++ [Turn.mk d.nextId user_id role content]).filter (fun t =>
      !((((((d.convo ++ [Turn.mk d.nextId user_id role content]).filter
        (fun t => t.user_id == user_id)).reverse.drop
          (HISTORY_TURNS * 2)).map (fun t => t.id)).contains t.id)))).filter
        (fun t => t.user_id == w) = _
  rw [filter_comm_turn]
  have h1 : (d.convo ++ [Turn.mk d.nextId user_id role content]).filter
      (fun t => t.user_id == w) = d.convo.filter (fun t => t.user_id == w) := by
    rw [List.filter_append]
    simp [Ne.symm hw]
  rw [h1]
  apply List.filter_eq_self.mpr
  intro a ha
  have haw : a.user_id = w := by
    have := (List.mem_filter.mp ha).2
    simpa using this
  have hamem : a ∈ d.convo ++ [Turn.mk d.nextId user_id role content] :=
    List.mem_append_left _ (List.mem_filter.mp ha).1
  simp only [Bool.not_eq_true']
  rw [Bool.eq_false_iff]
  intro hc
  have hmem : a.id ∈ ((((d.convo ++ [Turn.mk d.nextId user_id role content]).filter
      (fun t => t.user_id == user_id)).reverse.drop
        (HISTORY_TURNS * 2)).map (fun t => t.id)) := by
    simpa [List.contains] using hc
  obtain ⟨y, hy, hyid⟩ := List.mem_map.mp hmem
  have hyu : y ∈ (d.convo ++ [Turn.mk d.nextId user_id role content]).filter
      (fun t => t.user_id == user_id) :=
    List.mem_reverse.mp (List.mem_of_mem_drop hy)
  have hymem : y ∈ d.convo ++ [Turn.mk d.nextId user_id role content] :=
    (List.mem_filter.mp hyu).1
  have hyuid : y.user_id = user_id := by
    have := (List.mem_filter.mp hyu).2
    simpa using this
  have : y = a := List.inj_on_of_nodup_map hnodup hymem hamem hyid
  rw [this, haw] at hyuid
  exact hw hyuid

/-- `addPost` preserves the well-formedness invariant. -/
theorem WF_addPost (HISTORY_TURNS user_id : Nat) (role content : String)
    (d : DB) (hwf : WF d) : WF (addPost HISTORY_TURNS user_id role content d) := by
  constructor
  · exact List.Pairwise.sublist (List.filter_sublist _)
      (convo1_pairwise d hwf user_id role content)
  · intro t ht
    have hmem : t ∈ d.convo ++ [Turn.mk d.nextId user_id role content] :=
      List.mem_of_mem_filter ht
    have hnext : (addPost HISTORY_TURNS user_id role content d).nextId =
      d.nextId + 1 := rfl
    rw [hnext]
    rcases List.mem_append.mp hmem with h | h
    · have := hwf.2 t h
      omega
    · simp at h
      rw [h]
      exact Nat.lt_succ_self d.nextId

/-! ### Equation lemmas for the storage operations -/

theorem get_user_op_absent (today : String) (user_id : Nat)
    (username : Option String) (d : DB) (htab : d.tables = true)
    (habs : d.users.find? (fun r => r.user_id == user_id) = none) :
    get_user_op today user_id username d =
      .ok ((user_id, some 0, some today),
        { d with users := d.users ++ [⟨user_id, username, some 0, some today⟩] }) := by
  unfold get_user_op
  rw [htab, habs]
  simp

theorem get_user_op_fresh (today : String) (user_id : Nat)
    (username : Option String) (d : DB) (r : UserRow) (htab : d.tables = true)
    (hfind : d.users.find? (fun x => x.user_id == user_id) = some r)
    (hdate : r.last_reset = some today) :
    get_user_op today user_id username d =
      .ok ((r.user_id, r.messages_today, r.last_reset), d) := by
  unfold get_user_op
  rw [htab, hfind]
  simp [hdate]

theorem get_user_op_stale (today : String) (user_id : Nat)
    (username : Option String) (d : DB) (r : UserRow) (htab : d.tables = true)
    (hfind : d.users.find? (fun x => x.user_id == user_id) = some r)
    (hdate : r.last_reset ≠ some today) :
    get_user_op today user_id username d =
      .ok ((r.user_id, some 0, some today),
        { d with users := d.users.map (fun x =>
            if x.user_id == user_id then
              { x with messages_today := some 0, last_reset := some today }
            else x) }) := by
  unfold get_user_op
  rw [htab, hfind]
  simp [hdate]

theorem inc_user_counter_op_eq (user_id : Nat) (d : DB) (htab : d.tables = true) :
    inc_user_counter_op user_id d =
      .ok ((), { d with users := d.users.map (fun r =>
        if r.user_id == user_id then
          { r with messages_today := some (r.messages_today.getD 0 + 1) }
        else r) }) := by
  unfold inc_user_counter_op
  rw [htab]
  simp

theorem get_history_op_eq (user_id : Nat) (d : DB) (htab : d.tables = true) :
    get_history_op user_id d = .ok (histPairs d user_id, d) := by
  unfold get_history_op
  rw [htab]
  simp

theorem do_reset_op_eq (user_id : Nat) (d : DB) (htab : d.tables = true) :
    do_reset_op user_id d =
      .ok ((), { d with convo := d.convo.filter (fun t => !(t.user_id == user_id)) }) := by
  unfold do_reset_op
  rw [htab]
  simp

/-- With no pending injected fault, `_db_try` reduces to running the
operation once against the active database. -/
theorem db_try_no_faults {α : Type} (op : DB → Except DBErr (α × DB)) (s : Sys)
    (hf : s.faults = []) (a : α) (d : DB) (hop : op s.store = .ok (a, d)) :
    db_try op s = (.ok a, ⟨s.uri, d, []⟩) := by
  cases s with
  | mk uri store faults =>
    simp only at hf hop
    subst hf
    cases uri <;> simp [db_try, attempt, hop]

/-- A single attempt never changes the backend flag: only `db_try`'s
fallback branch does, via `switch_to_memory_db`. -/
theorem attempt_uri {α : Type} (op : DB → Except DBErr (α × DB)) (s : Sys) :
    (attempt op s).2.uri = s.uri := by
  unfold attempt
  cases hu : s.uri <;> simp [hu] <;> split <;> simp_all
  · split <;> simp_all

/-- Whenever `_db_try` returns normally, the returned value came from
one execution of the operation, either against the database that was
active on entry or — after the one-shot fallback — against the fresh
shared in-memory database. -/
theorem db_try_ok_cases {α : Type} (op : DB → Except DBErr (α × DB)) (s s' : Sys)
    (a : α) (h : db_try op s = (.ok a, s')) :
    op s.store = .ok (a, s'.store) ∨ op freshDB = .ok (a, s'.store) := by
  cases s with
  | mk uri store faults =>
    simp only
    cases uri
    · cases hf : faults.head?.getD false
      · cases hop : op store with
        | ok ad =>
          obtain ⟨a1, d1⟩ := ad
          left
          unfold db_try attempt at h
          simp [hf, hop, switch_to_memory_db] at h
          rw [h.1, ← h.2]
        | error e =>
          cases e
          · cases hop2 : op freshDB with
            | ok ad =>
              obtain ⟨a1, d1⟩ := ad
              right
              unfold db_try attempt switch_to_memory_db at h
              simp [hf, hop, hop2] at h
              rw [h.1, ← h.2]
            | error e2 =>
              exfalso
              unfold db_try attempt switch_to_memory_db at h
              simp [hf, hop, hop2] at h
          · exfalso
            unfold db_try attempt at h
            simp [hf, hop, switch_to_memory_db] at h
      · cases hop2 : op freshDB with
        | ok ad =>
          obtain ⟨a1, d1⟩ := ad
          right
          unfold db_try attempt switch_to_memory_db at h
          simp [hf, hop2] at h
          rw [h.1, ← h.2]
        | error e2 =>
          exfalso
          unfold db_try attempt switch_to_memory_db at h
          simp [hf, hop2] at h
    · cases hop : op store with
      | ok ad =>
        obtain ⟨a1, d1⟩ := ad
        left
        unfold db_try attempt at h
        simp [hop] at h
        rw [h.1, ← h.2]
      | error e =>
        exfalso
        cases e <;>
          · unfold db_try attempt at h
            simp [hop] at h

/-- Once the backend flag is ephemeral it stays ephemeral across any
further `_db_try` call: the transition is never reversed. -/
theorem db_try_uri_mono {α : Type} (op : DB → Except DBErr (α × DB)) (s : Sys)
    (h : s.uri = true) : (db_try op s).2.uri = true := by
  have ha := attempt_uri op s
  unfold db_try
  cases hres : attempt op s with
  | mk r s1 =>
    rw [hres] at ha
    simp only at ha
    have hs1 : s1.uri = true := ha.trans h
    cases r with
    | ok a => simpa using hs1
    | error e => cases e <;> simp [hs1]

/-- C3: every storage operation runs through the fallback wrapper
`_db_try`; if the attempt raises an I/O-class error while the backend
is still durable (`DB_URI = False`), the process-wide state switches to
the shared in-memory backend and the operation is retried exactly once
(the result of that single retry is returned as-is); if the backend is
already ephemeral, the error propagates with no retry; and the
durable-to-ephemeral transition is never reversed, so it can happen at
most once per process. -/
theorem c3_db_try_one_shot_fallback {α : Type} (op : DB → Except DBErr (α × DB))
    (s s1 : Sys) :
    (s.uri = false → attempt op s = (.error .ioClass, s1) →
      db_try op s = attempt op (switch_to_memory_db s1) ∧
      (db_try op s).2.uri = true) ∧
    (∀ e : DBErr, s.uri = true → op s.store = .error e →
      db_try op s = (.error e, s)) ∧
    (s.uri = true → (db_try op s).2.uri = true) := by
  refine ⟨?_, ?_, ?_⟩
  · intro hu hatt
    have hs1 : s1.uri = false := by
      have := attempt_uri op s
      rw [hatt] at this
      simp only at this
      rw [this, hu]
    have heq : db_try op s = attempt op (switch_to_memory_db s1) := by
      unfold db_try
      rw [hatt]
      simp [hs1]
    refine ⟨heq, ?_⟩
    rw [heq, attempt_uri]
    rfl
  · intro e hu hop
    cases e <;> simp [db_try, attempt, hu, hop]
  · exact db_try_uri_mono op s

/-- Witness for C3: a history read on a fresh durable backend whose
first call raises (missing tables count as
`sqlite3.OperationalError`) falls back and retries once; the same read
on an ephemeral backend propagates the error unchanged. -/
theorem c3_witness :
    ((⟨false, freshDB, []⟩ : Sys).uri = false ∧
     attempt (get_history_op 1) ⟨false, freshDB, []⟩ =
       (.error .ioClass, ⟨false, freshDB, []⟩) ∧
     (db_try (get_history_op 1) ⟨false, freshDB, []⟩ =
        attempt (get_history_op 1) (switch_to_memory_db ⟨false, freshDB, []⟩) ∧
      (db_try (get_history_op 1) ⟨false, freshDB, []⟩).2.uri = true)) ∧
    ((⟨true, freshDB, []⟩ : Sys).uri = true ∧
     get_history_op 1 (⟨true, freshDB, []⟩ : Sys).store = .error .ioClass ∧
     db_try (get_history_op 1) ⟨true, freshDB, []⟩ =
       (.error .ioClass, ⟨true, freshDB, []⟩)) ∧
    (db_try (get_history_op 1) ⟨true, freshDB, []⟩).2.uri = true :=
  ⟨⟨rfl, rfl,
    (c3_db_try_one_shot_fallback (get_history_op 1) ⟨false, freshDB, []⟩
      ⟨false, freshDB, []⟩).1 rfl rfl⟩,
   ⟨rfl, rfl,
    (c3_db_try_one_shot_fallback (get_history_op 1) ⟨true, freshDB, []⟩
      ⟨true, freshDB, []⟩).2.1 .ioClass rfl rfl⟩,
   (c3_db_try_one_shot_fallback (get_history_op 1) ⟨true, freshDB, []⟩
      ⟨true, freshDB, []⟩).2.2 rfl⟩

/-- Deleting a user's turns leaves nothing of that user to filter. -/
theorem turns_filter_after_reset (l : List Turn) (user_id : Nat) :
    (l.filter (fun t => !(t.user_id == user_id))).filter
      (fun t => t.user_id == user_id) = [] := by
  rw [List.filter_filter]
  have h : (fun (t : Turn) => (t.user_id == user_id) && !(t.user_id == user_id)) =
      fun _ => false := by
    funext t
    cases ht : t.user_id == user_id <;> simp [ht]
  rw [h]
  simp

/-- C7: for every user and every prior state of the store, a
`clear_history` (the `/reset` deletion) that returns normally followed
immediately by a `get_history` that returns normally yields the empty
sequence. -/
theorem c7_clear_then_history_empty (user_id : Nat) (s s1 s2 : Sys) (a : Unit)
    (rows : List (String × String))
    (hreset : db_try (do_reset_op user_id) s = (.ok a, s1))
    (hhist : db_try (get_history_op user_id) s1 = (.ok rows, s2)) :
    rows = [] := by
  have hself : s1.store.convo.filter (fun t => t.user_id == user_id) = [] := by
    rcases db_try_ok_cases _ _ _ _ hreset with h | h
    · unfold do_reset_op at h
      by_cases ht : s.store.tables = false
      · rw [if_pos ht] at h
        cases h
      · rw [if_neg ht] at h
        simp only [Except.ok.injEq, Prod.mk.injEq] at h
        rw [← h.2]
        exact turns_filter_after_reset _ _
    · unfold do_reset_op at h
      simp [freshDB] at h
  rcases db_try_ok_cases _ _ _ _ hhist with h | h
  · unfold get_history_op at h
    by_cases ht : s1.store.tables = false
    · rw [if_pos ht] at h
      cases h
    · rw [if_neg ht] at h
      simp only [Except.ok.injEq, Prod.mk.injEq] at h
      rw [← h.1]
      unfold histPairs
      rw [hself]
      rfl
  · unfold get_history_op at h
    simp [freshDB] at h

/-- Witness for C7 at a concrete store holding one turn for the user. -/
theorem c7_witness :
    db_try (do_reset_op 1) ⟨false, ⟨true, [], [⟨1, 1, "user", "hi"⟩], 2⟩, []⟩ =
      (.ok (), ⟨false, ⟨true, [], [], 2⟩, []⟩) ∧
    db_try (get_history_op 1) ⟨false, ⟨true, [], [], 2⟩, []⟩ =
      (.ok [], ⟨false, ⟨true, [], [], 2⟩, []⟩) ∧
    ([] : List (String × String)) = [] :=
  ⟨rfl, rfl,
    c7_clear_then_history_empty 1 ⟨false, ⟨true, [], [⟨1, 1, "user", "hi"⟩], 2⟩, []⟩
      ⟨false, ⟨true, [], [], 2⟩, []⟩ ⟨false, ⟨true, [], [], 2⟩, []⟩ () [] rfl rfl⟩

/-- C4: `get_user` inserts an absent user with counter 0 and today's
date and returns that row; on a stale (or `NULL`) `last_reset` it
resets the counter to 0 and updates the date before returning, so the
returned counter is 0; on a fresh `last_reset` it returns the stored
row unchanged and writes nothing. -/
theorem c4_get_user_semantics (today : String) (user_id : Nat)
    (username : Option String) (d : DB) (htab : d.tables = true) :
    (d.users.find? (fun r => r.user_id == user_id) = none →
      get_user_op today user_id username d =
        .ok ((user_id, some 0, some today),
          { d with users := d.users ++ [⟨user_id, username, some 0, some today⟩] })) ∧
    (∀ r : UserRow, d.users.find? (fun x => x.user_id == user_id) = some r →
      r.last_reset ≠ some today →
      get_user_op today user_id username d =
        .ok ((r.user_id, some 0, some today),
          { d with users := d.users.map (fun x =>
              if x.user_id == user_id then
                { x with messages_today := some 0, last_reset := some today }
              else x) })) ∧
    (∀ r : UserRow, d.users.find? (fun x => x.user_id == user_id) = some r →
      r.last_reset = some today →
      get_user_op today user_id username d =
        .ok ((r.user_id, r.messages_today, r.last_reset), d)) :=
  ⟨fun habs => get_user_op_absent today user_id username d htab habs,
   fun r hfind hdate => get_user_op_stale today user_id username d r htab hfind hdate,
   fun r hfind hdate => get_user_op_fresh today user_id username d r htab hfind hdate⟩

/-- Witness for C4: the three branches at concrete stores — an absent
user, a user with a stale date, and a user with today's date. -/
theorem c4_witness :
    ((⟨true, [], [], 1⟩ : DB).users.find? (fun r => r.user_id == 5) = none ∧
     get_user_op "2026-10-12" 5 (some "ann") ⟨true, [], [], 1⟩ =
       .ok ((5, some 0, some "2026-10-12"),
         ⟨true, [⟨5, some "ann", some 0, some "2026-10-12"⟩], [], 1⟩)) ∧
    ((⟨true, [⟨5, some "ann", some 7, some "2026-10-11"⟩], [], 1⟩ : DB).users.find?
        (fun x => x.user_id == 5) = some ⟨5, some "ann", some 7, some "2026-10-11"⟩ ∧
     (⟨5, some "ann", some 7, some "2026-10-11"⟩ : UserRow).last_reset ≠
       some "2026-10-12" ∧
     get_user_op "2026-10-12" 5 (some "ann")
         ⟨true, [⟨5, some "ann", some 7, some "2026-10-11"⟩], [], 1⟩ =
       .ok ((5, some 0, some "2026-10-12"),
         ⟨true, [⟨5, some "ann", some 0, some "2026-10-12"⟩], [], 1⟩)) ∧
    ((⟨true, [⟨5, some "ann", some 7, some "2026-10-12"⟩], [], 1⟩ : DB).users.find?
        (fun x => x.user_id == 5) = some ⟨5, some "ann", some 7, some "2026-10-12"⟩ ∧
     (⟨5, some "ann", some 7, some "2026-10-12"⟩ : UserRow).last_reset =
       some "2026-10-12" ∧
     get_user_op "2026-10-12" 5 (some "ann")
         ⟨true, [⟨5, some "ann", some 7, some "2026-10-12"⟩], [], 1⟩ =
       .ok ((5, some 7, some "2026-10-12"),
         ⟨true, [⟨5, some "ann", some 7, some "2026-10-12"⟩], [], 1⟩)) := by
  refine ⟨⟨by decide, ?_⟩, ⟨by decide, by decide, ?_⟩, ⟨by decide, by decide, ?_⟩⟩
  · exact (c4_get_user_semantics "2026-10-12" 5 (some "ann") ⟨true, [], [], 1⟩ rfl).1
      (by decide)
  · exact (c4_get_user_semantics "2026-10-12" 5 (some "ann")
      ⟨true, [⟨5, some "ann", some 7, some "2026-10-11"⟩], [], 1⟩ rfl).2.1
      ⟨5, some "ann", some 7, some "2026-10-11"⟩ (by decide) (by decide)
  · exact (c4_get_user_semantics "2026-10-12" 5 (some "ann")
      ⟨true, [⟨5, some "ann", some 7, some "2026-10-12"⟩], [], 1⟩ rfl).2.2
      ⟨5, some "ann", some 7, some "2026-10-12"⟩ (by decide) (by decide)

/-- Database states reachable from process start through the storage
operations of the source: table creation, user get-or-create (on any
date), counter increment, turn append, and history reset.  The start
state is a fresh database — also the state of the in-memory database
right after a fallback switch. -/
inductive Reach (HISTORY_TURNS : Nat) : DB → Prop where
  | start : Reach HISTORY_TURNS freshDB
  | init (d d' : DB) (a : Unit) : Reach HISTORY_TURNS d →
      init_db_op d = .ok (a, d') → Reach HISTORY_TURNS d'
  | get (d d' : DB) (today : String) (user_id : Nat) (username : Option String)
      (r : Nat × Option Int × Option String) : Reach HISTORY_TURNS d →
      get_user_op today user_id username d = .ok (r, d') → Reach HISTORY_TURNS d'
  | inc (d d' : DB) (user_id : Nat) (a : Unit) : Reach HISTORY_TURNS d →
      inc_user_counter_op user_id d = .ok (a, d') → Reach HISTORY_TURNS d'
  | add (d d' : DB) (user_id : Nat) (role content : String) (a : Unit) :
      Reach HISTORY_TURNS d →
      add_msg_op HISTORY_TURNS user_id role content d = .ok (a, d') →
      Reach HISTORY_TURNS d'
  | reset (d d' : DB) (user_id : Nat) (a : Unit) : Reach HISTORY_TURNS d →
      do_reset_op user_id d = .ok (a, d') → Reach HISTORY_TURNS d'

/-- C10: in every reachable database state, every user row carries a
non-`NULL`, non-negative counter: creation and the daily rollover store
0, and the increment adds exactly 1 to the `COALESCE`d value, so no
operation sequence ever produces a negative `messages_today`. -/
theorem c10_counter_nonneg (HISTORY_TURNS : Nat) (d : DB)
    (h : Reach HISTORY_TURNS d) :
    ∀ r ∈ d.users, ∃ n : Int, r.messages_today = some n ∧ 0 ≤ n := by
  induction h with
  | start =>
    intro r hr
    cases hr
  | init d d' a _ hop ih =>
    unfold init_db_op at hop
    simp only [Except.ok.injEq, Prod.mk.injEq] at hop
    intro r hr
    apply ih
    rw [← hop.2] at hr
    exact hr
  | get d d' today user_id username r _ hop ih =>
    intro x hx
    cases htb : d.tables with
    | false =>
      unfold get_user_op at hop
      rw [if_pos htb] at hop
      cases hop
    | true =>
      cases hfind : d.users.find? (fun r => r.user_id == user_id) with
      | none =>
        rw [get_user_op_absent today user_id username d htb hfind] at hop
        simp only [Except.ok.injEq, Prod.mk.injEq] at hop
        rw [← hop.2] at hx
        simp only [List.mem_append, List.mem_singleton] at hx
        rcases hx with hx | hx
        · exact ih x hx
        · subst hx
          exact ⟨0, rfl, le_refl 0⟩
      | some row =>
        by_cases hdate : row.last_reset = some today
        · rw [get_user_op_fresh today user_id username d row htb hfind hdate] at hop
          simp only [Except.ok.injEq, Prod.mk.injEq] at hop
          rw [← hop.2] at hx
          exact ih x hx
        · rw [get_user_op_stale today user_id username d row htb hfind hdate] at hop
          simp only [Except.ok.injEq, Prod.mk.injEq] at hop
          rw [← hop.2] at hx
          obtain ⟨y, hy, hxy⟩ := List.mem_map.mp hx
          by_cases hyid : y.user_id == user_id
          · rw [← hxy]
            simp only [hyid, if_true]
            exact ⟨0, rfl, le_refl 0⟩
          · rw [← hxy]
            simp only [hyid]
            simp only [Bool.false_eq_true, if_false]
            exact ih y hy
  | inc d d' user_id a _ hop ih =>
    intro x hx
    cases htb : d.tables with
    | false =>
      unfold inc_user_counter_op at hop
      rw [if_pos htb] at hop
      cases hop
    | true =>
      rw [inc_user_counter_op_eq user_id d htb] at hop
      simp only [Except.ok.injEq, Prod.mk.injEq] at hop
      rw [← hop.2] at hx
      obtain ⟨y, hy, hxy⟩ := List.mem_map.mp hx
      obtain ⟨n, hn, hn0⟩ := ih y hy
      by_cases hyid : y.user_id == user_id
      · rw [← hxy]
        simp only [hyid, if_true]
        refine ⟨y.messages_today.getD 0 + 1, rfl, ?_⟩
        rw [hn]
        simp
        omega
      · rw [← hxy]
        simp only [hyid]
        simp only [Bool.false_eq_true, if_false]
        exact ih y hy
  | add d d' user_id role content a _ hop ih =>
    intro x hx
    unfold add_msg_op at hop
    by_cases ht : d.tables = false
    · rw [if_pos ht] at hop
      cases hop
    · rw [if_neg ht] at hop
      by_cases hrole : role ≠ "user" ∧ role ≠ "assistant" ∧ role ≠ "system"
      · rw [if_pos hrole] at hop
        cases hop
      · rw [if_neg hrole] at hop
        simp only [Except.ok.injEq, Prod.mk.injEq] at hop
        rw [← hop.2] at hx
        exact ih x hx
  | reset d d' user_id a _ hop ih =>
    intro x hx
    unfold do_reset_op at hop
    by_cases ht : d.tables = false
    · rw [if_pos ht] at hop
      cases hop
    · rw [if_neg ht] at hop
      simp only [Except.ok.injEq, Prod.mk.injEq] at hop
      rw [← hop.2] at hx
      exact ih x hx

/-- Witness for C10: a concrete reachable state (init, create user 1,
one increment) whose only row carries counter 1. -/
theorem c10_witness :
    Reach 16 ⟨true, [⟨1, some "local_user", some 1, some "2026-10-12"⟩], [], 1⟩ ∧
    ∀ r ∈ (⟨true, [⟨1, some "local_user", some 1, some "2026-10-12"⟩], [], 1⟩ : DB).users,
      ∃ n : Int, r.messages_today = some n ∧ 0 ≤ n := by
  have h1 : Reach 16 ⟨true, [], [], 1⟩ :=
    Reach.init freshDB _ () Reach.start rfl
  have h2 : Reach 16 ⟨true, [⟨1, some "local_user", some 0, some "2026-10-12"⟩], [], 1⟩ :=
    Reach.get _ _ "2026-10-12" 1 (some "local_user") (1, some 0, some "2026-10-12") h1 rfl
  have h3 : Reach 16 ⟨true, [⟨1, some "local_user", some 1, some "2026-10-12"⟩], [], 1⟩ :=
    Reach.inc _ _ 1 () h2 rfl
  exact ⟨h3, c10_counter_nonneg 16 _ h3⟩

/-- A user's retrievable pairs after a successful `_add`: the last
`HISTORY_TURNS * 2` of the previous pairs followed by the new pair. -/
theorem histPairs_addPost_self (HISTORY_TURNS user_id : Nat)
    (role content : String) (d : DB) (hwf : WF d) :
    histPairs (addPost HISTORY_TURNS user_id role content d) user_id =
      lastN (HISTORY_TURNS * 2) (histPairs d user_id ++ [(role, content)]) := by
  unfold histPairs
  rw [addPost_filter_self HISTORY_TURNS user_id role content d hwf]
  rw [map_lastN, List.map_append]
  rfl

/-- Repeated `add_msg` of a list of `(role, content)` turns for one
user; the first exception aborts the iteration. -/
def appendTurns (HISTORY_TURNS user_id : Nat) :
    List (String × String) → DB → Except DBErr DB
  | [], d => .ok d
  | (role, content) :: rest, d =>
    match add_msg_op HISTORY_TURNS user_id role content d with
    | .ok (_, d1) => appendTurns HISTORY_TURNS user_id rest d1
    | .error e => .error e

/-- Iteration invariant for `appendTurns`: with valid roles and
existing tables every step succeeds, well-formedness is preserved, and
after at least one append the user's retrievable pairs are the last
`HISTORY_TURNS * 2` of the original pairs followed by the appended
ones. -/
theorem appendTurns_invariant (HISTORY_TURNS user_id : Nat) :
    ∀ (ts : List (String × String)) (d : DB), WF d → d.tables = true →
    (∀ p ∈ ts, p.1 = "user" ∨ p.1 = "assistant" ∨ p.1 = "system") →
    ∃ d', appendTurns HISTORY_TURNS user_id ts d = .ok d' ∧ WF d' ∧
      d'.tables = true ∧
      (histPairs d' user_id =
          lastN (HISTORY_TURNS * 2) (histPairs d user_id ++ ts) ∨
        (ts = [] ∧ d' = d)) := by
  intro ts
  induction ts with
  | nil =>
    intro d hwf htab _
    exact ⟨d, rfl, hwf, htab, Or.inr ⟨rfl, rfl⟩⟩
  | cons p rest ih =>
    intro d hwf htab hroles
    obtain ⟨role, content⟩ := p
    have hrole : role = "user" ∨ role = "assistant" ∨ role = "system" :=
      hroles (role, content) (List.mem_cons_self _ _)
    have heq := add_msg_op_eq HISTORY_TURNS user_id role content d htab hrole
    have hwf1 : WF (addPost HISTORY_TURNS user_id role content d) :=
      WF_addPost HISTORY_TURNS user_id role content d hwf
    have htab1 : (addPost HISTORY_TURNS user_id role content d).tables = true := by
      rw [addPost_tables, htab]
    have hhist1 : histPairs (addPost HISTORY_TURNS user_id role content d) user_id =
        lastN (HISTORY_TURNS * 2) (histPairs d user_id ++ [(role, content)]) :=
      histPairs_addPost_self HISTORY_TURNS user_id role content d hwf
    obtain ⟨d', hrun, hwf', htab', hhist'⟩ :=
      ih (addPost HISTORY_TURNS user_id role content d) hwf1 htab1
        (fun q hq => hroles q (List.mem_cons_of_mem _ hq))
    refine ⟨d', ?_, hwf', htab', ?_⟩
    · unfold appendTurns
      rw [heq]
      exact hrun
    · left
      rcases hhist' with hh | ⟨hrest, hd⟩
      · rw [hh, hhist1, lastN_lastN_append, List.append_assoc]
        rfl
      · rw [hd, hhist1, hrest]

/-- C1: for every user and configuration, appending
`k > HISTORY_TURNS * 2` turns through `add_msg` from any well-formed
state leaves exactly the `HISTORY_TURNS * 2` most recently appended
turns retrievable, in insertion order oldest-first (the `k - 2H` oldest
are gone), and a single successful `add_msg` never leaves more than
`HISTORY_TURNS * 2` turns retrievable for that user. -/
theorem c1_history_window (HISTORY_TURNS user_id : Nat) (d : DB)
    (ts : List (String × String)) (hwf : WF d) (htab : d.tables = true)
    (hroles : ∀ p ∈ ts, p.1 = "user" ∨ p.1 = "assistant" ∨ p.1 = "system")
    (hlen : HISTORY_TURNS * 2 < ts.length) :
    (∃ d', appendTurns HISTORY_TURNS user_id ts d = .ok d' ∧
      histPairs d' user_id = ts.drop (ts.length - HISTORY_TURNS * 2)) ∧
    (∀ (d0 d1 : DB) (role content : String) (a : Unit), WF d0 →
      add_msg_op HISTORY_TURNS user_id role content d0 = .ok (a, d1) →
      (histPairs d1 user_id).length ≤ HISTORY_TURNS * 2) := by
  constructor
  · obtain ⟨d', hrun, _, _, hhist⟩ :=
      appendTurns_invariant HISTORY_TURNS user_id ts d hwf htab hroles
    refine ⟨d', hrun, ?_⟩
    rcases hhist with hh | ⟨hnil, _⟩
    · rw [hh, lastN_append_of_le _ _ _ (Nat.le_of_lt hlen)]
      rfl
    · rw [hnil] at hlen
      simp at hlen
  · intro d0 d1 role content a hwf0 hop
    unfold add_msg_op at hop
    by_cases ht : d0.tables = false
    · rw [if_pos ht] at hop
      cases hop
    · rw [if_neg ht] at hop
      by_cases hr : role ≠ "user" ∧ role ≠ "assistant" ∧ role ≠ "system"
      · rw [if_pos hr] at hop
        cases hop
      · rw [if_neg hr] at hop
        simp only [Except.ok.injEq, Prod.mk.injEq] at hop
        have hd1 : d1 = addPost HISTORY_TURNS user_id role content d0 := by
          rw [← hop.2]
          rfl
        rw [hd1, histPairs_addPost_self HISTORY_TURNS user_id role content d0 hwf0]
        rw [length_lastN]
        exact Nat.min_le_left _ _

/-- Witness for C1: three appends with `HISTORY_TURNS = 1` keep only
the last two. -/
theorem c1_witness :
    WF ⟨true, [], [], 1⟩ ∧ (⟨true, [], [], 1⟩ : DB).tables = true ∧
    (∀ p ∈ ([("user", "a"), ("user", "b"), ("user", "c")] :
        List (String × String)),
      p.1 = "user" ∨ p.1 = "assistant" ∨ p.1 = "system") ∧
    1 * 2 < ([("user", "a"), ("user", "b"), ("user", "c")] :
        List (String × String)).length ∧
    ((∃ d', appendTurns 1 7 [("user", "a"), ("user", "b"), ("user", "c")]
        ⟨true, [], [], 1⟩ = .ok d' ∧
      histPairs d' 7 = [("user", "a"), ("user", "b"), ("user", "c")].drop
        ([("user", "a"), ("user", "b"), ("user", "c")].length - 1 * 2)) ∧
    (∀ (d0 d1 : DB) (role content : String) (a : Unit), WF d0 →
      add_msg_op 1 7 role content d0 = .ok (a, d1) →
      (histPairs d1 7).length ≤ 1 * 2)) := by
  have hwf : WF ⟨true, [], [], 1⟩ := ⟨List.Pairwise.nil, by simp⟩
  have hroles : ∀ p ∈ ([("user", "a"), ("user", "b"), ("user", "c")] :
      List (String × String)),
      p.1 = "user" ∨ p.1 = "assistant" ∨ p.1 = "system" := by decide
  exact ⟨hwf, rfl, hroles, by decide,
    c1_history_window 1 7 ⟨true, [], [], 1⟩
      [("user", "a"), ("user", "b"), ("user", "c")] hwf rfl hroles (by decide)⟩

/-! ### Conversation engine -/

/-- The message list `generate_reply` hands to `_openai_reply`:
persona prompt, optional username note (only for a truthy username),
stored history in order, new user message last. -/
def buildMsgs (username : Option String) (history : List (String × String))
    (user_text : String) : List Msg :=
  [Msg.mk "system" SYSTEM_PROMPT] ++
    (match username with
     | some u =>
       if u = "" then []
       else [Msg.mk "system" ("User telegram username is @" ++ u ++ ".")]
     | none => []) ++
    history.map (fun rc => Msg.mk rc.1 rc.2) ++
    [Msg.mk "user" user_text]

/-- With no pending fault and existing tables, `generate_reply` reads
the history once and returns the provider reply over the constructed
message list, leaving the state untouched. -/
theorem generate_reply_eq (provider : Provider) (user_id : Nat)
    (user_text : String) (username : Option String) (s : Sys)
    (hf : s.faults = []) (htab : s.store.tables = true) :
    generate_reply provider user_id user_text username s =
      (.ok (openai_reply provider
        (buildMsgs username (histPairs s.store user_id) user_text)), s) := by
  cases s with
  | mk uri store faults =>
    simp only at hf htab ⊢
    subst hf
    unfold generate_reply
    rw [db_try_no_faults (get_history_op user_id) ⟨uri, store, []⟩ rfl _ _
      (get_history_op_eq user_id store htab)]
    unfold buildMsgs
    cases username with
    | none => simp
    | some u =>
      by_cases hu : u = ""
      · simp [hu]
      · simp [hu]

/-- C9: `generate_reply` builds the provider message list in exactly
this order — the fixed persona instruction first, then (only when the
username is truthy) the display-name note, then every stored history
turn in stored order, then the new user message last — and it performs
no writes: the storage state after the call is the state before it. -/
theorem c9_generate_reply_order (provider : Provider) (user_id : Nat)
    (user_text : String) (username : Option String) (s : Sys)
    (hf : s.faults = []) (htab : s.store.tables = true) :
    generate_reply provider user_id user_text username s =
      (.ok (openai_reply provider
        (Msg.mk "system" SYSTEM_PROMPT ::
          ((match username with
            | some u =>
              if u = "" then []
              else [Msg.mk "system" ("User telegram username is @" ++ u ++ ".")]
            | none => ([] : List Msg)) ++
            ((histPairs s.store user_id).map (fun rc => Msg.mk rc.1 rc.2) ++
              [Msg.mk "user" user_text])))),
       s) := by
  rw [generate_reply_eq provider user_id user_text username s hf htab]
  unfold buildMsgs
  simp [List.append_assoc]

/-- Witness for C9 at a concrete state with one stored turn and a
known username. -/
theorem c9_witness :
    (⟨false, ⟨true, [], [⟨1, 4, "user", "hey"⟩], 2⟩, []⟩ : Sys).faults = [] ∧
    (⟨false, ⟨true, [], [⟨1, 4, "user", "hey"⟩], 2⟩, []⟩ : Sys).store.tables = true ∧
    generate_reply none 4 "ciao" (some "bob")
        ⟨false, ⟨true, [], [⟨1, 4, "user", "hey"⟩], 2⟩, []⟩ =
      (.ok (openai_reply none
        (Msg.mk "system" SYSTEM_PROMPT ::
          ((if ("bob" : String) = "" then []
            else [Msg.mk "system" ("User telegram username is @" ++ "bob" ++ ".")]) ++
            ((histPairs (⟨true, [], [⟨1, 4, "user", "hey"⟩], 2⟩ : DB) 4).map
                (fun rc => Msg.mk rc.1 rc.2) ++
              [Msg.mk "user" "ciao"])))),
       ⟨false, ⟨true, [], [⟨1, 4, "user", "hey"⟩], 2⟩, []⟩) :=
  ⟨rfl, rfl,
    c9_generate_reply_order none 4 "ciao" (some "bob")
      ⟨false, ⟨true, [], [⟨1, 4, "user", "hey"⟩], 2⟩, []⟩ rfl rfl⟩

/-! ### Substring occurrence (for the echo property) -/

/-- Occurrence of `pat` as a contiguous sublist. -/
def subOccurs (pat : List Char) : List Char → Bool
  | [] => pat.isEmpty
  | c :: cs => pat.isPrefixOf (c :: cs) || subOccurs pat cs

/-- Occurrence of `pat` as a substring of `s`. -/
def containsSub (s pat : String) : Bool :=
  subOccurs pat.data s.data

theorem isPrefixOf_refl_chars (l : List Char) : l.isPrefixOf l = true := by
  induction l with
  | nil => rfl
  | cons c cs ih => simp [List.isPrefixOf, ih]

theorem subOccurs_self (pat : List Char) : subOccurs pat pat = true := by
  cases pat with
  | nil => rfl
  | cons c cs => simp [subOccurs, isPrefixOf_refl_chars]

theorem subOccurs_append_self (pat x : List Char) :
    subOccurs pat (x ++ pat) = true := by
  induction x with
  | nil => simpa using subOccurs_self pat
  | cons c cs ih => simp [subOccurs, ih]

/-- Any string occurs as a substring of itself with anything prepended. -/
theorem containsSub_append_self (pre t : String) :
    containsSub (pre ++ t) t = true := by
  unfold containsSub
  have hd : (pre ++ t).data = pre.data ++ t.data := rfl
  rw [hd]
  exact subOccurs_append_self t.data pre.data

/-- Counterexample to C5 as stated: with a configured provider whose
API call raises, `generate_reply` returns the fixed apology, which does
not contain the user's text `"hello"` — the failure reply echoes the
user's input only on the provider-unavailable path, not on the
provider-error path. -/
theorem c5_counterexample :
    generate_reply (some (fun _ => .error ())) 1 "hello" none
        ⟨false, ⟨true, [], [], 1⟩, []⟩ =
      (.ok "У меня небольшой сбой с мозгами 🤯 Попробуешь ещё раз?",
       ⟨false, ⟨true, [], [], 1⟩, []⟩) ∧
    containsSub "У меня небольшой сбой с мозгами 🤯 Попробуешь ещё раз?"
      "hello" = false :=
  ⟨rfl, by decide⟩

/-- The deterministic stub picks the content of the last user-role
message — for a list built by `generate_reply`, the new user text. -/
theorem openai_reply_none_echo (msgs : List Msg) (user_text : String) :
    openai_reply none (msgs ++ [Msg.mk "user" user_text]) =
      "Я тут с тобой, милашка 💫\n\nТы написал(а): " ++ user_text := by
  unfold openai_reply
  rw [List.reverse_append]
  simp

/-- C5 amended: when the provider is unavailable, `generate_reply`
returns (as a normal reply, not an error) a non-empty deterministic
string that echoes the user's text; when a configured provider raises,
it returns (again as a normal reply) a fixed non-empty apology string —
which does not in general contain the user's text. -/
theorem c5_amended_failure_replies (provider_fail : List Msg → Except Unit String)
    (hfail : ∀ ms, provider_fail ms = .error ())
    (user_id : Nat) (user_text : String) (username : Option String) (s : Sys)
    (hf : s.faults = []) (htab : s.store.tables = true) :
    (generate_reply none user_id user_text username s =
      (.ok ("Я тут с тобой, милашка 💫\n\nТы написал(а): " ++ user_text), s) ∧
     containsSub ("Я тут с тобой, милашка 💫\n\nТы написал(а): " ++ user_text)
       user_text = true ∧
     ("Я тут с тобой, милашка 💫\n\nТы написал(а): " ++ user_text) ≠ "") ∧
    (generate_reply (some provider_fail) user_id user_text username s =
      (.ok "У меня небольшой сбой с мозгами 🤯 Попробуешь ещё раз?", s) ∧
     ("У меня небольшой сбой с мозгами 🤯 Попробуешь ещё раз?" : String) ≠ "") := by
  have hne : ("Я тут с тобой, милашка 💫\n\nТы написал(а): " ++ user_text) ≠ "" := by
    intro h
    have hlen := congrArg String.length h
    rw [String.length_append] at hlen
    have hpre : 0 < ("Я тут с тобой, милашка 💫\n\nТы написал(а): " : String).length := by
      decide
    simp at hlen
    omega
  refine ⟨⟨?_, containsSub_append_self _ _, hne⟩, ⟨?_, by decide⟩⟩
  · rw [generate_reply_eq none user_id user_text username s hf htab]
    unfold buildMsgs
    rw [openai_reply_none_echo]
  · rw [generate_reply_eq (some provider_fail) user_id user_text username s hf htab]
    simp [openai_reply, hfail]

/-- Witness for the amended C5 at a concrete state and text. -/
theorem c5_witness :
    (∀ ms : List Msg, (fun _ : List Msg => (.error () : Except Unit String)) ms =
      .error ()) ∧
    (⟨false, ⟨true, [], [], 1⟩, []⟩ : Sys).faults = [] ∧
    (⟨false, ⟨true, [], [], 1⟩, []⟩ : Sys).store.tables = true ∧
    ((generate_reply none 1 "hello" none ⟨false, ⟨true, [], [], 1⟩, []⟩ =
        (.ok ("Я тут с тобой, милашка 💫\n\nТы написал(а): " ++ "hello"),
         ⟨false, ⟨true, [], [], 1⟩, []⟩) ∧
      containsSub ("Я тут с тобой, милашка 💫\n\nТы написал(а): " ++ "hello")
        "hello" = true ∧
      ("Я тут с тобой, милашка 💫\n\nТы написал(а): " ++ "hello") ≠ "") ∧
     (generate_reply (some (fun _ => .error ())) 1 "hello" none
          ⟨false, ⟨true, [], [], 1⟩, []⟩ =
        (.ok "У меня небольшой сбой с мозгами 🤯 Попробуешь ещё раз?",
         ⟨false, ⟨true, [], [], 1⟩, []⟩) ∧
      ("У меня небольшой сбой с мозгами 🤯 Попробуешь ещё раз?" : String) ≠ "")) :=
  ⟨fun _ => rfl, rfl, rfl,
    c5_amended_failure_replies (fun _ => .error ()) (fun _ => rfl) 1 "hello" none
      ⟨false, ⟨true, [], [], 1⟩, []⟩ rfl rfl⟩

/-! ### Session-loop infrastructure -/

/-- The `users` row of a given user, as `fetchone` sees it. -/
def findUser (d : DB) (user_id : Nat) : Option UserRow :=
  d.users.find? (fun r => r.user_id == user_id)

theorem findUser_user_id (d : DB) (user_id : Nat) (r : UserRow)
    (h : findUser d user_id = some r) : r.user_id = user_id := by
  have := List.find?_some h
  simpa using this

theorem find?_map_user_id_pres (l : List UserRow) (f : UserRow → UserRow)
    (hf : ∀ r, (f r).user_id = r.user_id) (user_id : Nat) :
    (l.map f).find? (fun r => r.user_id == user_id) =
      (l.find? (fun r => r.user_id == user_id)).map f := by
  induction l with
  | nil => rfl
  | cons x l ih =>
    simp only [List.map_cons, List.find?]
    rw [hf x]
    cases hx : (x.user_id == user_id) <;> simp [ih]

/-- The database after a successful `_inc`. -/
def incPost (user_id : Nat) (d : DB) : DB :=
  { d with users := d.users.map (fun r =>
    if r.user_id == user_id then
      { r with messages_today := some (r.messages_today.getD 0 + 1) }
    else r) }

theorem inc_user_counter_op_eq' (user_id : Nat) (d : DB) (htab : d.tables = true) :
    inc_user_counter_op user_id d = .ok ((), incPost user_id d) :=
  inc_user_counter_op_eq user_id d htab

theorem incPost_preserves_user_id (user_id : Nat) :
    ∀ r : UserRow, ((fun r : UserRow =>
      if r.user_id == user_id then
        { r with messages_today := some (r.messages_today.getD 0 + 1) }
      else r) r).user_id = r.user_id := by
  intro r
  by_cases hx : r.user_id == user_id <;> simp [hx]

theorem findUser_incPost_self (d : DB) (user_id : Nat) (r : UserRow)
    (h : findUser d user_id = some r) :
    findUser (incPost user_id d) user_id =
      some { r with messages_today := some (r.messages_today.getD 0 + 1) } := by
  unfold findUser incPost
  simp only
  rw [find?_map_user_id_pres _ _ (incPost_preserves_user_id user_id)]
  unfold findUser at h
  rw [h]
  have hid : r.user_id = user_id := findUser_user_id d user_id r h
  simp [hid]

theorem findUser_incPost_other (d : DB) (user_id w : Nat) (hw : w ≠ user_id) :
    findUser (incPost user_id d) w = findUser d w := by
  unfold findUser incPost
  simp only
  rw [find?_map_user_id_pres _ _ (incPost_preserves_user_id user_id)]
  cases hfw : d.users.find? (fun r => r.user_id == w) with
  | none => rfl
  | some rw =>
    have hrw : rw.user_id = w := by
      have := List.find?_some hfw
      simpa using this
    have hne : (rw.user_id == user_id) = false := by
      simp [hrw, hw]
    simp [hne]
    intro hcontra
    rw [hrw] at hcontra
    exact absurd hcontra hw

theorem incPost_convo (user_id : Nat) (d : DB) :
    (incPost user_id d).convo = d.convo := rfl

theorem incPost_tables (user_id : Nat) (d : DB) :
    (incPost user_id d).tables = d.tables := rfl

/-- The database after the `/reset` deletion. -/
def resetPost (user_id : Nat) (d : DB) : DB :=
  { d with convo := d.convo.filter (fun t => !(t.user_id == user_id)) }

theorem do_reset_op_eq' (user_id : Nat) (d : DB) (htab : d.tables = true) :
    do_reset_op user_id d = .ok ((), resetPost user_id d) :=
  do_reset_op_eq user_id d htab

theorem WF_resetPost (user_id : Nat) (d : DB) (hwf : WF d) :
    WF (resetPost user_id d) :=
  ⟨List.Pairwise.sublist (List.filter_sublist _) hwf.1,
   fun t ht => hwf.2 t (List.mem_of_mem_filter ht)⟩

theorem histPairs_resetPost_self (user_id : Nat) (d : DB) :
    histPairs (resetPost user_id d) user_id = [] := by
  unfold histPairs resetPost
  simp only
  rw [turns_filter_after_reset]
  rfl

theorem histPairs_resetPost_other (user_id w : Nat) (hw : w ≠ user_id) (d : DB) :
    histPairs (resetPost user_id d) w = histPairs d w := by
  unfold histPairs resetPost
  simp only
  rw [filter_comm_turn]
  congr 1
  apply List.filter_eq_self.mpr
  intro a ha
  have haw : a.user_id = w := by
    have := (List.mem_filter.mp ha).2
    simpa using this
  simp [haw, hw]

theorem histPairs_addPost_other (HISTORY_TURNS user_id : Nat)
    (role content : String) (d : DB) (hwf : WF d) (w : Nat) (hw : w ≠ user_id) :
    histPairs (addPost HISTORY_TURNS user_id role content d) w =
      histPairs d w := by
  unfold histPairs
  rw [addPost_filter_other HISTORY_TURNS user_id role content d hwf w hw]

/-- The per-session invariant for the loop lemmas: no pending injected
fault, tables exist, the conversation store is well-formed, and the
session user's row holds counter `c` with today's date. -/
def SessionInv (user_id : Nat) (today : String) (c : Int) (s : Sys) : Prop :=
  s.faults = [] ∧ s.store.tables = true ∧ WF s.store ∧
  ∃ r : UserRow, findUser s.store user_id = some r ∧
    r.messages_today = some c ∧ r.last_reset = some today

/-- A console input line that is neither blank (after strip) nor one of
the commands. -/
def NormalLine (raw : String) : Prop :=
  pyStrip raw ≠ "" ∧ pyStrip raw ≠ "/quit" ∧ pyStrip raw ≠ ":q" ∧
  pyStrip raw ≠ "exit" ∧ pyStrip raw ≠ "/reset"

/-- A normal line handled while the counter has reached the limit:
the loop prints the paywall notice and continues with the state exactly
as it was — nothing is appended and nothing is incremented. -/
theorem session_blocked_step (provider : Provider) (H FREE : Nat) (today : String)
    (user_id : Nat) (un : Option String) (text : String) (rest : List String)
    (s : Sys) (c : Int) (hinv : SessionInv user_id today c s)
    (hc : (FREE : Int) ≤ c) (hn : NormalLine text) :
    session_loop provider H FREE today user_id un (text :: rest) s =
      (PAYWALL_HOOK user_id ::
        (session_loop provider H FREE today user_id un rest s).1,
       (session_loop provider H FREE today user_id un rest s).2) := by
  obtain ⟨hf, htab, hwf, r, hfind, hcnt, hdate⟩ := hinv
  obtain ⟨hne, hq1, hq2, hq3, hrst⟩ := hn
  have hid : r.user_id = user_id := findUser_user_id _ _ _ hfind
  have hget : db_try (get_user_op today user_id un) s =
      (.ok (user_id, some c, r.last_reset), s) := by
    have h0 := db_try_no_faults (get_user_op today user_id un) s hf _ _
      (get_user_op_fresh today user_id un s.store r htab hfind hdate)
    rw [hid, hcnt] at h0
    have hseta : (⟨s.uri, s.store, []⟩ : Sys) = s := by
      rw [← hf]
    rw [hseta] at h0
    exact h0
  simp only [session_loop]
  simp [hne, hq1, hq2, hq3, hrst, hget, hc]

/-- A normal line handled while the counter is below the limit: the
loop records the user turn, generates the reply, records it and
increments the counter; the invariant advances by one and every other
user's rows and turns are untouched. -/
theorem session_success_step (provider : Provider) (H FREE : Nat) (today : String)
    (user_id : Nat) (un : Option String) (text : String) (s : Sys) (c : Int)
    (hinv : SessionInv user_id today c s) (hc : ¬ (FREE : Int) ≤ c)
    (hn : NormalLine text) :
    ∃ reply s',
      (∀ rest, session_loop provider H FREE today user_id un (text :: rest) s =
        (reply :: (session_loop provider H FREE today user_id un rest s').1,
         (session_loop provider H FREE today user_id un rest s').2)) ∧
      SessionInv user_id today (c + 1) s' ∧ s'.uri = s.uri ∧
      (∀ w, w ≠ user_id → findUser s'.store w = findUser s.store w) ∧
      (∀ w, w ≠ user_id → histPairs s'.store w = histPairs s.store w) ∧
      (∃ r : UserRow, findUser s.store user_id = some r ∧
        findUser s'.store user_id =
          some { r with messages_today := some (c + 1) }) ∧
      histPairs s'.store user_id =
        lastN (H * 2) (lastN (H * 2) (histPairs s.store user_id ++
          [("user", pyStrip text)]) ++ [("assistant", reply)]) := by
  obtain ⟨hf, htab, hwf, r, hfind, hcnt, hdate⟩ := hinv
  obtain ⟨hne, hq1, hq2, hq3, hrst⟩ := hn
  have hid : r.user_id = user_id := findUser_user_id _ _ _ hfind
  have hseta : (⟨s.uri, s.store, []⟩ : Sys) = s := by
    rw [← hf]
  have hget : db_try (get_user_op today user_id un) s =
      (.ok (user_id, some c, r.last_reset), s) := by
    have h0 := db_try_no_faults (get_user_op today user_id un) s hf _ _
      (get_user_op_fresh today user_id un s.store r htab hfind hdate)
    rw [hid, hcnt] at h0
    rw [hseta] at h0
    exact h0
  set d1 := addPost H user_id "user" (pyStrip text) s.store with hd1
  have hadd1 : db_try (add_msg_op H user_id "user" (pyStrip text)) s =
      (.ok (), ⟨s.uri, d1, []⟩) :=
    db_try_no_faults _ s hf _ _
      (add_msg_op_eq H user_id "user" (pyStrip text) s.store htab (Or.inl rfl))
  have htab1 : d1.tables = true := by
    rw [hd1, addPost_tables]
    exact htab
  have hwf1 : WF d1 := WF_addPost H user_id "user" (pyStrip text) s.store hwf
  have hgen : generate_reply provider user_id (pyStrip text) un ⟨s.uri, d1, []⟩ =
      (.ok (openai_reply provider (buildMsgs un (histPairs d1 user_id) (pyStrip text))),
       ⟨s.uri, d1, []⟩) :=
    generate_reply_eq provider user_id (pyStrip text) un ⟨s.uri, d1, []⟩ rfl htab1
  set reply := openai_reply provider (buildMsgs un (histPairs d1 user_id) (pyStrip text))
    with hreply
  set d2 := addPost H user_id "assistant" reply d1 with hd2
  have hadd2 : db_try (add_msg_op H user_id "assistant" reply) ⟨s.uri, d1, []⟩ =
      (.ok (), ⟨s.uri, d2, []⟩) :=
    db_try_no_faults _ _ rfl _ _
      (add_msg_op_eq H user_id "assistant" reply d1 htab1 (Or.inr (Or.inl rfl)))
  have htab2 : d2.tables = true := by
    rw [hd2, addPost_tables]
    exact htab1
  have hwf2 : WF d2 := WF_addPost H user_id "assistant" reply d1 hwf1
  set d3 := incPost user_id d2 with hd3
  have hinc : db_try (inc_user_counter_op user_id) ⟨s.uri, d2, []⟩ =
      (.ok (), ⟨s.uri, d3, []⟩) :=
    db_try_no_faults _ _ rfl _ _ (inc_user_counter_op_eq' user_id d2 htab2)
  have husers2 : findUser d2 user_id = some r := hfind
  have hrow3 : findUser d3 user_id =
      some { r with messages_today := some (c + 1) } := by
    rw [hd3]
    rw [findUser_incPost_self d2 user_id r husers2]
    rw [hcnt]
    simp
  refine ⟨reply, ⟨s.uri, d3, []⟩, ?_, ?_, rfl, ?_, ?_, ⟨r, hfind, hrow3⟩, ?_⟩
  · intro rest
    simp only [session_loop]
    simp [hne, hq1, hq2, hq3, hrst, hget, hc, hadd1, hgen, hadd2, hinc]
  · refine ⟨rfl, ?_, ?_, { r with messages_today := some (c + 1) }, hrow3, rfl, hdate⟩
    · rw [hd3, incPost_tables]
      exact htab2
    · exact hwf2
  · intro w hw
    show findUser d3 w = findUser s.store w
    rw [hd3, findUser_incPost_other d2 user_id w hw]
    rfl
  · intro w hw
    show histPairs d3 w = histPairs s.store w
    have h3 : histPairs d3 w = histPairs d2 w := rfl
    rw [h3, hd2, histPairs_addPost_other H user_id "assistant" reply d1 hwf1 w hw,
      hd1, histPairs_addPost_other H user_id "user" (pyStrip text) s.store hwf w hw]
  · show histPairs d3 user_id = _
    have h3 : histPairs d3 user_id = histPairs d2 user_id := rfl
    rw [h3, hd2, histPairs_addPost_self H user_id "assistant" reply d1 hwf1,
      hd1, histPairs_addPost_self H user_id "user" (pyStrip text) s.store hwf]

/-- Running a list of normal lines from counter `c` with
`c + length = FREE` yields one reply per line; a further normal line is
then blocked: the combined run prints the paywall notice after the
replies and ends in exactly the same state as the run without the extra
line — the blocked interaction changes nothing. -/
theorem session_run_then_block (provider : Provider) (H FREE : Nat)
    (today : String) (user_id : Nat) (un : Option String) (extra : String)
    (hex : NormalLine extra) :
    ∀ (lines : List String), (∀ l ∈ lines, NormalLine l) →
    ∀ (s : Sys) (c : Int), SessionInv user_id today c s →
    c + lines.length = FREE →
    ∃ outs s',
      session_loop provider H FREE today user_id un (lines ++ [extra]) s =
        (outs ++ [PAYWALL_HOOK user_id], .ok s') ∧
      session_loop provider H FREE today user_id un lines s = (outs, .ok s') ∧
      outs.length = lines.length ∧ SessionInv user_id today FREE s' := by
  intro lines
  induction lines with
  | nil =>
    intro _ s c hinv hsum
    simp at hsum
    subst hsum
    have hb := session_blocked_step provider H FREE today user_id un extra [] s
      FREE hinv (le_refl _) hex
    refine ⟨[], s, ?_, rfl, rfl, hinv⟩
    rw [List.nil_append]
    rw [hb]
    simp [session_loop]
  | cons l rest ih =>
    intro hnorm s c hinv hsum
    have hcl : ¬ (FREE : Int) ≤ c := by
      simp only [List.length_cons] at hsum
      push_cast at hsum
      omega
    obtain ⟨reply, s1, hstep, hinv1, _, _, _, _, _⟩ :=
      session_success_step provider H FREE today user_id un l s c hinv hcl
        (hnorm l (List.mem_cons_self _ _))
    obtain ⟨outs, s', h1, h2, hlen, hinvF⟩ :=
      ih (fun x hx => hnorm x (List.mem_cons_of_mem _ hx)) s1 (c + 1) hinv1
        (by simp only [List.length_cons] at hsum ⊢; push_cast at hsum ⊢; omega)
    refine ⟨reply :: outs, s', ?_, ?_, by simp [hlen], hinvF⟩
    · have hs := hstep (rest ++ [extra])
      rw [show (l :: rest) ++ [extra] = l :: (rest ++ [extra]) from rfl]
      rw [hs, h1]
      rfl
    · have hs := hstep rest
      rw [hs, h2]

/-- C2: a user whose fresh-date counter has reached
`FREE_MESSAGES_PER_DAY` gets exactly the paywall notice and the state
is completely unchanged (no turn appended, no increment) — shown for
the Telegram handler; and in the local loop, after exactly
`FREE_MESSAGES_PER_DAY` successful message+reply cycles on the same
day, the next interaction is blocked the same way: the combined run
ends in the very state of the run without the blocked message, with
counter `FREE_MESSAGES_PER_DAY`. -/
theorem c2_quota_paywall (provider : Provider) (H FREE : Nat) (today : String)
    (user_id : Nat) (un : Option String) (s : Sys) :
    (∀ (text : String) (r : UserRow) (u : Int),
      s.faults = [] → s.store.tables = true →
      findUser s.store user_id = some r → r.messages_today = some u →
      r.last_reset = some today → (FREE : Int) ≤ u →
      tg_text provider H FREE today user_id un text s = (PAYWALL_HOOK user_id, s)) ∧
    (∀ (lines : List String) (extra : String),
      (∀ l ∈ lines, NormalLine l) → NormalLine extra →
      lines.length = FREE → SessionInv user_id today 0 s →
      ∃ outs s',
        session_loop provider H FREE today user_id un (lines ++ [extra]) s =
          (outs ++ [PAYWALL_HOOK user_id], .ok s') ∧
        session_loop provider H FREE today user_id un lines s = (outs, .ok s') ∧
        outs.length = FREE ∧
        (∃ r' : UserRow, findUser s'.store user_id = some r' ∧
          r'.messages_today = some (FREE : Int))) := by
  constructor
  · intro text r u hf htab hfind hcnt hdate hu
    have hid : r.user_id = user_id := findUser_user_id _ _ _ hfind
    have hget : db_try (get_user_op today user_id un) s =
        (.ok (user_id, some u, r.last_reset), s) := by
      have h0 := db_try_no_faults (get_user_op today user_id un) s hf _ _
        (get_user_op_fresh today user_id un s.store r htab hfind hdate)
      rw [hid, hcnt] at h0
      have hseta : (⟨s.uri, s.store, []⟩ : Sys) = s := by
        rw [← hf]
      rw [hseta] at h0
      exact h0
    unfold tg_text tg_text_body
    rw [hget]
    simp [hu]
  · intro lines extra hnorm hex hlen hinv
    obtain ⟨outs, s', h1, h2, hl, hinvF⟩ :=
      session_run_then_block provider H FREE today user_id un extra hex lines
        hnorm s 0 hinv (by rw [hlen]; simp)
    obtain ⟨_, _, _, r', hr', hc', _⟩ := hinvF
    exact ⟨outs, s', h1, h2, by rw [hl, hlen], r', hr', hc'⟩

/-- Witness for C2: with a daily limit of 1, a user at the limit gets
the paywall from the Telegram handler with unchanged state, and in the
local loop one successful cycle followed by another message yields one
reply then the paywall. -/
theorem c2_witness :
    tg_text none 1 1 "2026-10-12" 1 (some "local_user") "hey"
        ⟨false, ⟨true, [⟨1, some "local_user", some 1, some "2026-10-12"⟩], [], 1⟩, []⟩ =
      (PAYWALL_HOOK 1,
       ⟨false, ⟨true, [⟨1, some "local_user", some 1, some "2026-10-12"⟩], [], 1⟩, []⟩) ∧
    (∃ outs s',
      session_loop none 1 1 "2026-10-12" 1 (some "local_user") (["hi"] ++ ["yo"])
        ⟨false, ⟨true, [⟨1, some "local_user", some 0, some "2026-10-12"⟩], [], 1⟩, []⟩ =
        (outs ++ [PAYWALL_HOOK 1], .ok s') ∧
      session_loop none 1 1 "2026-10-12" 1 (some "local_user") ["hi"]
        ⟨false, ⟨true, [⟨1, some "local_user", some 0, some "2026-10-12"⟩], [], 1⟩, []⟩ =
        (outs, .ok s') ∧
      outs.length = 1 ∧
      (∃ r' : UserRow, findUser s'.store 1 = some r' ∧
        r'.messages_today = some (1 : Int))) := by
  constructor
  · exact (c2_quota_paywall none 1 1 "2026-10-12" 1 (some "local_user") _).1
      "hey" ⟨1, some "local_user", some 1, some "2026-10-12"⟩ 1 rfl rfl rfl rfl rfl
      (by norm_num)
  · refine (c2_quota_paywall none 1 1 "2026-10-12" 1 (some "local_user") _).2
      ["hi"] "yo" ?_ ?_ rfl ?_
    · intro l hl
      simp at hl
      subst hl
      exact ⟨by decide, by decide, by decide, by decide, by decide⟩
    · exact ⟨by decide, by decide, by decide, by decide, by decide⟩
    · exact ⟨rfl, rfl, ⟨List.Pairwise.nil, by simp⟩,
        ⟨1, some "local_user", some 0, some "2026-10-12"⟩, rfl, rfl, rfl⟩

/-- The `/reset` line in the local loop: with no pending fault and
existing tables, the deletion succeeds, the acknowledgement is printed
and the loop continues on the cleared store. -/
theorem session_reset_step (provider : Provider) (H FREE : Nat) (today : String)
    (user_id : Nat) (un : Option String) (rest : List String) (s : Sys)
    (hf : s.faults = []) (htab : s.store.tables = true) :
    session_loop provider H FREE today user_id un ("/reset" :: rest) s =
      ("Ок, начнём сначала ✨" ::
        (session_loop provider H FREE today user_id un rest
          ⟨s.uri, resetPost user_id s.store, []⟩).1,
       (session_loop provider H FREE today user_id un rest
          ⟨s.uri, resetPost user_id s.store, []⟩).2) := by
  have hreset : db_try (do_reset_op user_id) s =
      (.ok (), ⟨s.uri, resetPost user_id s.store, []⟩) :=
    db_try_no_faults _ s hf _ _ (do_reset_op_eq' user_id s.store htab)
  have htr : pyStrip "/reset" = "/reset" := by decide
  simp only [session_loop]
  simp [htr, hreset]

/-- C8: `/reset` clears only the issuing user's history and changes
nothing else: the user's counter and date are untouched by the reset,
every other user's row and turns are untouched throughout, and a
following message still succeeds and increments the counter from its
pre-reset value. -/
theorem c8_reset_only_clears_history (provider : Provider) (H FREE : Nat)
    (today : String) (user_id : Nat) (un : Option String) (msg : String)
    (s : Sys) (c : Int) (hH : 1 ≤ H) (hinv : SessionInv user_id today c s)
    (hc : ¬ (FREE : Int) ≤ c) (hmsg : NormalLine msg) :
    ∃ reply s',
      session_loop provider H FREE today user_id un ["/reset", msg] s =
        (["Ок, начнём сначала ✨", reply], .ok s') ∧
      (∃ r : UserRow, findUser s.store user_id = some r ∧
        findUser s'.store user_id =
          some { r with messages_today := some (c + 1) }) ∧
      (∀ w, w ≠ user_id → findUser s'.store w = findUser s.store w) ∧
      (∀ w, w ≠ user_id → histPairs s'.store w = histPairs s.store w) ∧
      histPairs s'.store user_id = [("user", pyStrip msg), ("assistant", reply)] := by
  obtain ⟨hf, htab, hwf, r, hfind, hcnt, hdate⟩ := hinv
  have hinvR : SessionInv user_id today c ⟨s.uri, resetPost user_id s.store, []⟩ :=
    ⟨rfl, htab, WF_resetPost user_id s.store hwf, r, hfind, hcnt, hdate⟩
  obtain ⟨reply, s2, hstep, _, _, hfoth, hhoth, hrow, hhist⟩ :=
    session_success_step provider H FREE today user_id un msg
      ⟨s.uri, resetPost user_id s.store, []⟩ c hinvR hc hmsg
  refine ⟨reply, s2, ?_, ?_, ?_, ?_, ?_⟩
  · rw [session_reset_step provider H FREE today user_id un [msg] s hf htab]
    rw [hstep []]
    simp [session_loop]
  · obtain ⟨r1, hr1, hr1'⟩ := hrow
    simp only at hr1
    have hsame : findUser (resetPost user_id s.store) user_id =
        findUser s.store user_id := rfl
    rw [hsame, hfind] at hr1
    injection hr1 with hr1e
    subst hr1e
    exact ⟨r, hfind, hr1'⟩
  · intro w hw
    rw [hfoth w hw]
    rfl
  · intro w hw
    rw [hhoth w hw]
    exact histPairs_resetPost_other user_id w hw s.store
  · rw [hhist, histPairs_resetPost_self user_id s.store]
    unfold lastN
    simp only [List.nil_append]
    have h1 : ([("user", pyStrip msg)] : List (String × String)).length - H * 2 = 0 := by
      simp
      omega
    rw [h1, List.drop_zero]
    rw [show ([("user", pyStrip msg)] ++ [("assistant", reply)] :
        List (String × String)) =
      [("user", pyStrip msg), ("assistant", reply)] from rfl]
    have h2 : ([("user", pyStrip msg), ("assistant", reply)] :
        List (String × String)).length - H * 2 = 0 := by
      simp
      omega
    rw [h2, List.drop_zero]

/-- Witness for C8: a `/reset` followed by one message, from a store
holding one old turn and counter 0 for the local user. -/
theorem c8_witness :
    (1 : Nat) ≤ 1 ∧
    SessionInv 1 "2026-10-12" 0
      ⟨false, ⟨true, [⟨1, some "local_user", some 0, some "2026-10-12"⟩],
        [⟨1, 1, "user", "old"⟩], 2⟩, []⟩ ∧
    ¬ ((15 : Nat) : Int) ≤ (0 : Int) ∧ NormalLine "hi" ∧
    (∃ reply s',
      session_loop none 1 15 "2026-10-12" 1 (some "local_user") ["/reset", "hi"]
        ⟨false, ⟨true, [⟨1, some "local_user", some 0, some "2026-10-12"⟩],
          [⟨1, 1, "user", "old"⟩], 2⟩, []⟩ =
        (["Ок, начнём сначала ✨", reply], .ok s') ∧
      (∃ r : UserRow,
        findUser (⟨true, [⟨1, some "local_user", some 0, some "2026-10-12"⟩],
          [⟨1, 1, "user", "old"⟩], 2⟩ : DB) 1 = some r ∧
        findUser s'.store 1 = some { r with messages_today := some (0 + 1) }) ∧
      (∀ w, w ≠ 1 → findUser s'.store w =
        findUser (⟨true, [⟨1, some "local_user", some 0, some "2026-10-12"⟩],
          [⟨1, 1, "user", "old"⟩], 2⟩ : DB) w) ∧
      (∀ w, w ≠ 1 → histPairs s'.store w =
        histPairs (⟨true, [⟨1, some "local_user", some 0, some "2026-10-12"⟩],
          [⟨1, 1, "user", "old"⟩], 2⟩ : DB) w) ∧
      histPairs s'.store 1 = [("user", pyStrip "hi"), ("assistant", reply)]) := by
  have hinv : SessionInv 1 "2026-10-12" 0
      ⟨false, ⟨true, [⟨1, some "local_user", some 0, some "2026-10-12"⟩],
        [⟨1, 1, "user", "old"⟩], 2⟩, []⟩ :=
    ⟨rfl, rfl, ⟨by simp, by decide⟩,
      ⟨1, some "local_user", some 0, some "2026-10-12"⟩, rfl, rfl, rfl⟩
  have hn : NormalLine "hi" :=
    ⟨by decide, by decide, by decide, by decide, by decide⟩
  exact ⟨le_refl 1, hinv, by norm_num, hn,
    c8_reset_only_clears_history none 1 15 "2026-10-12" 1 (some "local_user")
      "hi" _ 0 (le_refl 1) hinv (by norm_num) hn⟩

/-- Counterexample to C6: in the local console loop an exception from
per-message handling is not caught.  Here a single injected I/O fault
during the fourth storage call (the user-turn insert) triggers the
fallback, whose retry hits the fresh in-memory database without tables
and raises again; the exception escapes `run_local_session`: the loop
terminates with no reply and no apology message. -/
theorem c6_counterexample :
    run_local_session none 16 15 "2026-10-12" ["hi"]
      ⟨false, freshDB, [false, false, false, true]⟩ =
      ([], .error .ioClass) := by
  rfl

/-- C6 amended: the Telegram text handler converts any exception from
its per-message body into the single fixed apology reply, but the local
console session loop has no boundary handler: an exception while
handling a line terminates the whole loop with no user-visible message. -/
theorem c6_amended_boundary_catch (provider : Provider) (H FREE : Nat)
    (today : String) (user_id : Nat) (un : Option String) (text : String)
    (rest : List String) (s s1 : Sys) (e : DBErr) :
    (tg_text_body provider H FREE today user_id un text s = (.error e, s1) →
      tg_text provider H FREE today user_id un text s =
        ("Упс, у меня затык с базой/сетью. Напиши ещё раз чуть позже.", s1)) ∧
    (NormalLine text →
      db_try (get_user_op today user_id un) s = (.error e, s1) →
      session_loop provider H FREE today user_id un (text :: rest) s =
        ([], .error e)) := by
  constructor
  · intro hbody
    unfold tg_text
    rw [hbody]
  · intro hn hget
    obtain ⟨hne, hq1, hq2, hq3, hrst⟩ := hn
    simp only [session_loop]
    simp [hne, hq1, hq2, hq3, hrst, hget]

/-- Witness for the amended C6: on the ephemeral backend with no
tables, `get_user` raises; the Telegram handler answers with the
apology while the local loop aborts. -/
theorem c6_witness :
    tg_text_body none 16 15 "2026-10-12" 1 (some "local_user") "hi"
        ⟨true, freshDB, []⟩ = (.error .ioClass, ⟨true, freshDB, []⟩) ∧
    NormalLine "hi" ∧
    db_try (get_user_op "2026-10-12" 1 (some "local_user")) ⟨true, freshDB, []⟩ =
      (.error .ioClass, ⟨true, freshDB, []⟩) ∧
    (tg_text none 16 15 "2026-10-12" 1 (some "local_user") "hi"
        ⟨true, freshDB, []⟩ =
      ("Упс, у меня затык с базой/сетью. Напиши ещё раз чуть позже.",
       ⟨true, freshDB, []⟩)) ∧
    (session_loop none 16 15 "2026-10-12" 1 (some "local_user") ["hi"]
        ⟨true, freshDB, []⟩ = ([], .error .ioClass)) := by
  have hn : NormalLine "hi" :=
    ⟨by decide, by decide, by decide, by decide, by decide⟩
  refine ⟨rfl, hn, rfl, ?_, ?_⟩
  · exact (c6_amended_boundary_catch none 16 15 "2026-10-12" 1 (some "local_user")
      "hi" [] ⟨true, freshDB, []⟩ ⟨true, freshDB, []⟩ .ioClass).1 rfl
  · exact (c6_amended_boundary_catch none 16 15 "2026-10-12" 1 (some "local_user")
      "hi" [] ⟨true, freshDB, []⟩ ⟨true, freshDB, []⟩ .ioClass).2 hn rfl

end Lana
